import Mathlib

/-!
Shallow embedding of the `rust-container-builder` core: the content-addressable
blob store (`src/storage/mod.rs`), the reference resolver and OCI registry
push/pull client (`src/registry_client.rs`, `src/main.rs`).

External crates (`sha2`, `flate2`, `serde_json`, `oci-spec`, `uuid`) are not
part of this repository; their functions appear as explicit parameters
(`hash`, `compress`, digest validation) or as deterministic fields of the
model, never reimplemented.  Bytes are `List Nat` (each entry a `u8` value).
-/

namespace ContainerBuilder

abbrev Bytes := List Nat

/-- Lowercase hexadecimal digit for `n % 16`, as produced by Rust's `{:x}`. -/
def hexDigit (n : Nat) : Char :=
  if n % 16 < 10 then Char.ofNat (48 + n % 16) else Char.ofNat (87 + n % 16)

/-- One byte rendered as two lowercase hex characters (`{:02x}` per byte). -/
def byteHex (b : Nat) : List Char :=
  [hexDigit (b / 16), hexDigit b]

/-- `format!("{:x}", hash)` on a byte array: each byte as two lowercase
hex characters, in order. -/
def bytesToHex (bs : Bytes) : String :=
  String.mk (bs.flatMap byteHex)

/-- First split at a character: Rust's `splitn(2, c)` when it yields two
parts; `none` when `c` is absent. -/
def splitFirst (c : Char) : List Char → Option (List Char × List Char)
  | [] => none
  | x :: xs =>
    if x = c then some ([], xs)
    else
      match splitFirst c xs with
      | none => none
      | some (a, b) => some (x :: a, b)

/-- Last split at a character: Rust's `rsplitn(2, c)` when it yields two
parts (`before`, `after`); `none` when `c` is absent. -/
def splitLast (c : Char) (cs : List Char) : Option (List Char × List Char) :=
  match splitFirst c cs.reverse with
  | none => none
  | some (a, b) => some (b.reverse, a.reverse)

/-- `pattern.isPrefixOf s` on char lists, modelling Rust's `str::starts_with`. -/
def listStarts : List Char → List Char → Bool
  | _, [] => true
  | [], _ :: _ => false
  | x :: xs, y :: ys => x = y && listStarts xs ys

def strStarts (s pat : String) : Bool :=
  listStarts s.data pat.data

/-- `RegistryClient::parse_image_name` (src/registry_client.rs:42-60).
Splits the whole reference on its last `:` to get the tag (default
`latest`), then on the first `/`; if the head segment contains neither `.`
nor `:` (or there is no `/`), prepends `library/` to the whole repo,
otherwise drops the head segment.  The Rust function returns
`Result<(String, String)>` but constructs no error. -/
def parseImageName (imageName : String) : Except String (String × String) :=
  let cs := imageName.data
  let (tagCs, repoCs) :=
    match splitLast ':' cs with
    | some (before, after) => (after, before)
    | none => ("latest".data, cs)
  let repo := String.mk repoCs
  let tag := String.mk tagCs
  match splitFirst '/' repoCs with
  | none => .ok ("library/" ++ repo, tag)
  | some (head, rest) =>
    if !head.contains '.' && !head.contains ':' then
      .ok ("library/" ++ repo, tag)
    else
      .ok (String.mk rest, tag)

/-- `extract_registry_url` (src/main.rs:213-236).  The head segment before
the first `/` is a registry host iff it contains `.` or `:`; `http://` for
`localhost:`/`127.0.0.1:` hosts, `https://` otherwise; Docker Hub default. -/
def extractRegistryUrl (imageName : String) : String :=
  match splitFirst '/' imageName.data with
  | some (head, _) =>
    if head.contains '.' || head.contains ':' then
      let host := String.mk head
      if strStarts host "http://" || strStarts host "https://" then host
      else if strStarts host "localhost:" || strStarts host "127.0.0.1:" then
        "http://" ++ host
      else
        "https://" ++ host
    else
      "https://registry-1.docker.io"
  | none => "https://registry-1.docker.io"

/-- `storage::Layer` (src/storage/mod.rs:7-13). -/
structure Layer where
  id : String
  digest : String
  size : Nat
  path : String
deriving DecidableEq

/-- `oci_spec::image::ImageConfiguration` is external; `serde_json::to_vec`
on it is deterministic, so the model carries a configuration by its
serialized JSON bytes. -/
structure ImageConfiguration where
  json : Bytes
deriving DecidableEq

/-- Media types used by `create_manifest` (src/registry_client.rs:163,175,183). -/
inductive MediaType where
  | imageManifest
  | imageConfig
  | imageLayerGzip
deriving DecidableEq

/-- `oci_spec::image::Descriptor` as built by `DescriptorBuilder`. -/
structure Descriptor where
  mediaType : MediaType
  digest : String
  size : Nat
deriving DecidableEq

/-- `oci_spec::image::ImageManifest` as built by `ImageManifestBuilder`. -/
structure ImageManifest where
  schemaVersion : Nat
  mediaType : MediaType
  config : Descriptor
  layers : List Descriptor
deriving DecidableEq

/-- `storage::Image` (src/storage/mod.rs:15-22). -/
structure Image where
  id : String
  name : String
  layers : List Layer
  config : ImageConfiguration
  manifest : ImageManifest
deriving DecidableEq

/-- On-disk files: an association list from path to contents; a write
prepends, and lookup takes the most recent entry. -/
abbrev FileMap := List (String × Bytes)

def flookup (p : String) : FileMap → Option Bytes
  | [] => none
  | (q, b) :: fs => if q = p then some b else flookup p fs

/-- `StorageManager::create_layer` (src/storage/mod.rs:50-75).
`hash` stands for the external `sha2::Sha256` digest of a byte slice and
`compress` for the external `flate2` gzip encoder; `freshId` is the
`uuid::Uuid::new_v4()` value drawn by this call.  The digest is computed
over the raw input, the gzip-compressed bytes are written under
`layersDir/<freshId>.tar.gz`, and `size` is the uncompressed length. -/
def createLayer (hash compress : Bytes → Bytes) (layersDir freshId : String)
    (data : Bytes) (fs : FileMap) : Layer × FileMap :=
  let digest := "sha256:" ++ bytesToHex (hash data)
  let layerPath := layersDir ++ "/" ++ freshId ++ ".tar.gz"
  let compressed := compress data
  ({ id := freshId, digest := digest, size := data.length, path := layerPath },
   (layerPath, compressed) :: fs)

/-- `RegistryClient::create_manifest` (src/registry_client.rs:158-189).
`validDigest` stands for the external `oci_spec::image::Digest::try_from`
validation; the Rust code `unwrap`s its result, so an invalid digest string
is a panic, modelled as `none`.  Layer descriptors keep input order and copy
each layer's digest and size; the config descriptor's size is the length of
the serialized configuration. -/
def createManifest (validDigest : String → Bool) (config : ImageConfiguration)
    (layers : List Layer) (configDigest : String) : Option ImageManifest :=
  if layers.all (fun l => validDigest l.digest) && validDigest configDigest then
    let layerDescriptors := layers.map (fun l =>
      { mediaType := .imageLayerGzip, digest := l.digest, size := l.size : Descriptor })
    let configSize := config.json.length
    let configDescriptor :=
      { mediaType := .imageConfig, digest := configDigest, size := configSize : Descriptor }
    some { schemaVersion := 2, mediaType := .imageManifest,
           config := configDescriptor, layers := layerDescriptors }
  else
    none

/-- One observable HTTP request of the push path, with the success bit of
the status the registry answered. -/
inductive Event where
  | postInit (repo : String) (ok : Bool)
  | putBlob (digest : String) (ok : Bool)
  | putManifest (repo tag : String) (ok : Bool)
deriving DecidableEq

/-- The remote registry as an oracle: for the `n`-th upload initiation POST
of a push, whether its status is a success, its `location` header, and
whether the following blob PUT's status is a success; `readOk n` models the
`tokio::fs::read` of the layer file before the `n`-th PUT. -/
structure Registry where
  initOk : Nat → Bool
  loc : Nat → Option String
  putOk : Nat → Bool
  readOk : Nat → Bool
  manifestOk : Bool

def Event.statusOk : Event → Bool
  | .postInit _ ok => ok
  | .putBlob _ ok => ok
  | .putManifest _ _ ok => ok

def Event.isPutBlob : Event → Bool
  | .putBlob _ _ => true
  | _ => false

def Event.isPutManifest : Event → Bool
  | .putManifest _ _ _ => true
  | _ => false

/-- `RegistryClient::upload_layer` (src/registry_client.rs:62-105), as the
list of HTTP events it emits and whether it returned `Ok`: POST the upload
initiation; on non-success status, or a missing `location` header, or a
failed file read, return the error; otherwise PUT the blob bytes and
succeed iff the PUT status is a success. -/
def uploadBlobStep (reg : Registry) (n : Nat) (repo digest : String) :
    List Event × Bool :=
  if reg.initOk n then
    match reg.loc n with
    | some _ =>
      if reg.readOk n then
        ([.postInit repo true, .putBlob digest (reg.putOk n)], reg.putOk n)
      else ([.postInit repo true], false)
    | none => ([.postInit repo true], false)
  else ([.postInit repo false], false)

/-- The layer loop of `push_image` (src/registry_client.rs:27-29): layers
are uploaded in order, `n` counting the POSTs issued so far; the first
failure aborts the rest. -/
def uploadLayerList (reg : Registry) (repo : String) :
    List Layer → Nat → List Event × Bool
  | [], _ => ([], true)
  | l :: ls, n =>
    let r := uploadBlobStep reg n repo l.digest
    if r.2 then
      let rest := uploadLayerList reg repo ls (n + 1)
      (r.1 ++ rest.1, rest.2)
    else r

/-- `RegistryClient::upload_config` (src/registry_client.rs:107-156): the
config digest is SHA-256 of the serialized configuration, and the upload is
the same two-step POST/PUT as a layer (no file read). -/
def uploadConfigStep (reg : Registry) (n : Nat) (repo digest : String) :
    List Event × Bool :=
  if reg.initOk n then
    match reg.loc n with
    | some _ => ([.postInit repo true, .putBlob digest (reg.putOk n)], reg.putOk n)
    | none => ([.postInit repo true], false)
  else ([.postInit repo false], false)

/-- `RegistryClient::push_image` (src/registry_client.rs:20-40): parse the
name, upload every layer, upload the config, build the manifest, PUT the
manifest.  Any failed step returns its error with the events emitted so
far; the manifest PUT is the last event when reached. -/
def pushImage (hash : Bytes → Bytes) (validDigest : String → Bool)
    (reg : Registry) (imageName : String) (img : Image) : List Event × Bool :=
  match parseImageName imageName with
  | .error _ => ([], false)
  | .ok (repo, tag) =>
    let rl := uploadLayerList reg repo img.layers 0
    if rl.2 then
      let configDigest := "sha256:" ++ bytesToHex (hash img.config.json)
      let rc := uploadConfigStep reg img.layers.length repo configDigest
      if rc.2 then
        match createManifest validDigest img.config img.layers configDigest with
        | some _ =>
          (rl.1 ++ rc.1 ++ [.putManifest repo tag reg.manifestOk], reg.manifestOk)
        | none => (rl.1 ++ rc.1, false)
      else (rl.1 ++ rc.1, false)
    else (rl.1, false)

/-- The registry's GET side as an oracle: for a URL, `none` is a transport
error, `some (ok, body)` a response with status-success bit `ok`. -/
structure PullOracle where
  get : String → Option (Bool × Bytes)

def blobUrl (registryUrl repo digest : String) : String :=
  registryUrl ++ "/v2/" ++ repo ++ "/blobs/" ++ digest

/-- Rust's `str::replace(":", "_")` on a digest string. -/
def replaceColon (s : String) : String :=
  String.mk (s.data.map (fun c => if c = ':' then '_' else c))

def layerFileName (outputDir digest : String) : String :=
  outputDir ++ "/layer_" ++ replaceColon digest ++ ".tar.gz"

def configFileName (outputDir digest : String) : String :=
  outputDir ++ "/config_" ++ replaceColon digest ++ ".json"

/-- `RegistryClient::download_layer` (src/registry_client.rs:255-279): GET
the blob by the descriptor's digest; fail on transport error or non-success
status; otherwise write whatever bytes were served, unverified, to
`outputDir/layer_<digest with : replaced by _>.tar.gz`.  The result is the
(file name, contents) write, `none` on failure. -/
def downloadLayer (o : PullOracle) (registryUrl repo : String) (desc : Descriptor)
    (outputDir : String) : Option (String × Bytes) :=
  match o.get (blobUrl registryUrl repo desc.digest) with
  | none => none
  | some (ok, body) =>
    if ok then some (layerFileName outputDir desc.digest, body) else none

/-- `RegistryClient::download_config` (src/registry_client.rs:281-302):
identical to `downloadLayer` except for the `config_<digest>.json` name. -/
def downloadConfig (o : PullOracle) (registryUrl repo : String) (desc : Descriptor)
    (outputDir : String) : Option (String × Bytes) :=
  match o.get (blobUrl registryUrl repo desc.digest) with
  | none => none
  | some (ok, body) =>
    if ok then some (configFileName outputDir desc.digest, body) else none

/-- The layer loop of `pull_image` (src/registry_client.rs:224-226):
descriptors in manifest order, first failure aborts. -/
def downloadLayerList (o : PullOracle) (registryUrl repo : String)
    (outputDir : String) : List Descriptor → Option (List (String × Bytes))
  | [] => some []
  | d :: ds =>
    match downloadLayer o registryUrl repo d outputDir with
    | none => none
    | some w =>
      match downloadLayerList o registryUrl repo outputDir ds with
      | none => none
      | some ws => some (w :: ws)

/-- `RegistryClient::pull_image` (src/registry_client.rs:214-233) from the
manifest on: every layer in manifest order, then the config; the value is
the ordered list of file writes performed. -/
def pullBlobs (o : PullOracle) (registryUrl repo : String) (m : ImageManifest)
    (outputDir : String) : Option (List (String × Bytes)) :=
  match downloadLayerList o registryUrl repo outputDir m.layers with
  | none => none
  | some ws =>
    match downloadConfig o registryUrl repo m.config outputDir with
    | none => none
    | some w => some (ws ++ [w])

/-- The per-image files written by `save_image` (src/storage/mod.rs:77-96):
`config.json` and `manifest.json` (kept as structured values, since the
external serde round-trip is deterministic) and `name.txt`; `name` is
`none` when no `name.txt` exists in the image directory. -/
structure ImageRec where
  name : Option String
  config : ImageConfiguration
  manifest : ImageManifest
deriving DecidableEq

/-- The `images/` directory: ids in directory-iteration order, each with
its record. -/
structure ImageStore where
  images : List (String × ImageRec)
deriving DecidableEq

def lookupRec (id : String) : List (String × ImageRec) → Option ImageRec
  | [] => none
  | (i, r) :: rest => if i = id then some r else lookupRec id rest

/-- `StorageManager::list_images` (src/storage/mod.rs:167-178). -/
def listImages (st : ImageStore) : List String :=
  st.images.map (fun p => p.1)

/-- `StorageManager::save_image` (src/storage/mod.rs:77-96): writes the
config, manifest and display name under `images/<id>/`, replacing any
existing files for that id. -/
def upsertRec (id : String) (r : ImageRec) :
    List (String × ImageRec) → List (String × ImageRec)
  | [] => [(id, r)]
  | (i, r0) :: rest =>
    if i = id then (i, r) :: rest else (i, r0) :: upsertRec id r rest

def saveImage (st : ImageStore) (img : Image) : ImageStore :=
  { images := upsertRec img.id
      { name := some img.name, config := img.config, manifest := img.manifest }
      st.images }

/-- `StorageManager::get_image` (src/storage/mod.rs:98-122): `none` when the
id's directory does not exist; otherwise an `Image` whose `name` is the id
itself and whose `layers` are `vec![]` (both placeholders in the source),
with config and manifest read back from disk. -/
def getImage (st : ImageStore) (id : String) : Option Image :=
  match lookupRec id st.images with
  | none => none
  | some r =>
    some { id := id, name := id, layers := [],
           config := r.config, manifest := r.manifest }

/-- Rust's `str::trim`: whitespace dropped from both ends (the stored
names here are ASCII, so ASCII whitespace suffices). -/
def isWhite (c : Char) : Bool :=
  c = ' ' || c = '\t' || c = '\n' || c = '\r'

def strTrim (s : String) : String :=
  String.mk (((s.data.dropWhile isWhite).reverse.dropWhile isWhite).reverse)

/-- The scan loop of `get_image_by_name` (src/storage/mod.rs:129-139): the
first id whose stored `name.txt`, trimmed, equals the requested name. -/
def findByName (name : String) : List (String × ImageRec) → Option String
  | [] => none
  | (i, r) :: rest =>
    match r.name with
    | some stored =>
      if strTrim stored = name then some i else findByName name rest
    | none => findByName name rest

/-- Path components whose join onto `images_dir` resolves to an existing
path even when no image is stored under them: `""` (`join` keeps the
`images/` directory itself), `"."` and `".."`.  The probe ids reaching
`get_image` from `get_image_by_name`'s fallback are taken from after the
request's last `/`, so they contain no `/`; over a store whose directories
are exactly the uuid-keyed ones written by `save_image`, these three are
the only slash-free components that exist without being stored ids. -/
def selfOrParent (id : String) : Bool :=
  id = "" || id = "." || id = ".."

/-- `StorageManager::get_image` (src/storage/mod.rs:98-122) with its full
`Result<Option<Image>>` type: `Ok(None)` when `images/<id>` does not
exist, `Err` when the path exists but `config.json` cannot be read (the
`selfOrParent` components), `Ok(Some ..)` for a stored id, whose
`save_image`-written files read back. -/
def getImageResult (st : ImageStore) (id : String) : Except Unit (Option Image) :=
  if (lookupRec id st.images).isSome || selfOrParent id then
    match lookupRec id st.images with
    | some r =>
      .ok (some { id := id, name := id, layers := [],
                  config := r.config, manifest := r.manifest })
    | none => .error ()
  else
    .ok none

/-- `StorageManager::get_image_by_name` (src/storage/mod.rs:124-157): scan
all ids for a stored-name match; failing that, if the requested name has a
`/` and its final segment has a `:`, probe `get_image` on the text of that
segment before its first `:` — the source's `if let Ok(_) =
self.get_image(id_part)` matches `Ok(None)` as well as `Ok(Some ..)`, and
fails only on `Err` — and when the probe does not error, fall back to
`get_image` of the *first* listed image; every other path returns
`Ok(None)`. -/
def getImageByName (st : ImageStore) (name : String) : Option Image :=
  match findByName name st.images with
  | some id => getImage st id
  | none =>
    match splitLast '/' name.data with
    | none => none
    | some (_, after) =>
      match splitFirst ':' after with
      | none => none
      | some (idPart, _) =>
        match getImageResult st (String.mk idPart) with
        | .error _ => none
        | .ok _ =>
          match (listImages st).head? with
          | none => none
          | some firstId => getImage st firstId

/-! Concrete sample values used by witnesses and counterexamples. -/

def sampleConfig : ImageConfiguration := ⟨[123, 125]⟩

def sampleLayer : Layer :=
  { id := "id1", digest := "sha256:aa", size := 3, path := "layers/id1.tar.gz" }

def sampleManifest : ImageManifest :=
  { schemaVersion := 2, mediaType := .imageManifest,
    config := { mediaType := .imageConfig, digest := "sha256:bb", size := 2 },
    layers := [{ mediaType := .imageLayerGzip, digest := "sha256:aa", size := 3 }] }

def sampleStore : ImageStore :=
  ⟨[("abc", { name := some "foo", config := sampleConfig, manifest := sampleManifest })]⟩

def sampleImage : Image :=
  { id := "id0", name := "myimage", layers := [sampleLayer],
    config := sampleConfig, manifest := sampleManifest }

/-! ## Claims about reference resolution (C2, C3, C7) -/

/-- Claim C2: resolving `"myimage"` gives endpoint
`https://registry-1.docker.io`, repository `library/myimage`, tag
`latest`; resolving `"localhost:5000/myimage:v2"` gives endpoint
`http://localhost:5000`, repository `myimage`, tag `v2`. -/
theorem c2_resolution_worked_examples :
    parseImageName "myimage" = .ok ("library/myimage", "latest") ∧
    extractRegistryUrl "myimage" = "https://registry-1.docker.io" ∧
    parseImageName "localhost:5000/myimage:v2" = .ok ("myimage", "v2") ∧
    extractRegistryUrl "localhost:5000/myimage:v2" = "http://localhost:5000" :=
  ⟨by rfl, by decide, by rfl, by decide⟩

/-- Claim C3: for a reference with a port colon but no tag colon the claim
expects repository `myimage` and tag `latest`; the code instead splits the
whole reference at its *last* colon before looking for a host, so the port
colon is taken for a tag separator: `"localhost:5000/myimage"` resolves to
repository `library/localhost` with tag `5000/myimage` (a tag that cannot
even contain `/`). This evaluates the code at the failing input. -/
theorem c3_port_without_tag_misparsed :
    parseImageName "localhost:5000/myimage" = .ok ("library/localhost", "5000/myimage") := by
  rfl

/-- Claim C7, counterexample: the claim says resolution fails with
`InvalidReference` on the empty reference; the code has no error path at
all and resolves `""` to `(library/, latest)`. -/
theorem c7_counterexample_empty_reference_resolves :
    parseImageName "" = .ok ("library/", "latest") ∧
    extractRegistryUrl "" = "https://registry-1.docker.io" :=
  ⟨by rfl, by decide⟩

/-- Claim C7, amended: reference resolution never fails — for every
reference string, the empty string included, `parse_image_name` returns
`Ok` (and `extract_registry_url` is total by construction). -/
theorem c7_resolution_never_fails (s : String) : ∃ v, parseImageName s = .ok v := by
  unfold parseImageName
  rcases h1 : splitLast ':' s.data with _ | ⟨before, after⟩ <;> simp only [h1]
  · rcases h2 : splitFirst '/' s.data with _ | ⟨hd, tl⟩ <;> simp only [h2]
    · exact ⟨_, rfl⟩
    · split
      · exact ⟨_, rfl⟩
      · exact ⟨_, rfl⟩
  · rcases h2 : splitFirst '/' before with _ | ⟨hd, tl⟩ <;> simp only [h2]
    · exact ⟨_, rfl⟩
    · split
      · exact ⟨_, rfl⟩
      · exact ⟨_, rfl⟩

/-! ## Claims about the blob store (C4, C5) -/

def isLowerHexChar (c : Char) : Bool :=
  (48 ≤ c.toNat && c.toNat ≤ 57) || (97 ≤ c.toNat && c.toNat ≤ 102)

lemma hexDigit_lowerHex (n : Nat) : isLowerHexChar (hexDigit n) = true := by
  have h : n % 16 < 16 := Nat.mod_lt _ (by omega)
  unfold hexDigit
  set m := n % 16 with hm
  clear_value m
  interval_cases m <;> decide

lemma bytesToHex_lowerHex (bs : Bytes) :
    ∀ c ∈ (bytesToHex bs).data, isLowerHexChar c = true := by
  intro c hc
  rw [show (bytesToHex bs).data = bs.flatMap byteHex from rfl, List.mem_flatMap] at hc
  obtain ⟨b, _, hcb⟩ := hc
  simp only [byteHex, List.mem_cons, List.not_mem_nil, or_false] at hcb
  rcases hcb with rfl | rfl
  · exact hexDigit_lowerHex _
  · exact hexDigit_lowerHex _

/-- Claim C5: `create_layer` returns a `Layer` whose digest is `sha256:`
followed by the lowercase hex rendering of the (external) SHA-256 of the
*uncompressed* data, whose `size` is the uncompressed byte count, while
the bytes written to disk are the (external) gzip compression of the data,
under `layers/<fresh uuid>.tar.gz`. -/
theorem c5_create_layer_digest_size_disk (hash compress : Bytes → Bytes)
    (layersDir freshId : String) (data : Bytes) (fs : FileMap) :
    (createLayer hash compress layersDir freshId data fs).1.digest
      = "sha256:" ++ bytesToHex (hash data) ∧
    (createLayer hash compress layersDir freshId data fs).1.size = data.length ∧
    (createLayer hash compress layersDir freshId data fs).2
      = (layersDir ++ "/" ++ freshId ++ ".tar.gz", compress data) :: fs ∧
    (∀ c ∈ (bytesToHex (hash data)).data, isLowerHexChar c = true) :=
  ⟨rfl, rfl, rfl, bytesToHex_lowerHex _⟩

lemma layerPath_inj {dir f1 f2 : String}
    (h : dir ++ "/" ++ f1 ++ ".tar.gz" = dir ++ "/" ++ f2 ++ ".tar.gz") : f1 = f2 := by
  have hd := congrArg String.data h
  simp only [String.data_append] at hd
  exact String.ext (List.append_cancel_left (List.append_cancel_right hd))

lemma flookup_cons_eq {p : String} {b : Bytes} {fs : FileMap} :
    flookup p ((p, b) :: fs) = some b := by
  simp [flookup]

lemma flookup_cons_ne {p q : String} {b : Bytes} {fs : FileMap} (h : q ≠ p) :
    flookup p ((q, b) :: fs) = flookup p fs := by
  simp [flookup, h]

/-- Claim C4, amended: calling `create_layer` twice with the same bytes
returns the same digest both times, but each call stores a fresh
compressed copy under a new uuid-derived path — the content is written
twice, not deduplicated.  `f1 ≠ f2` models the freshness of the two
`uuid::Uuid::new_v4()` draws. -/
theorem c4_same_digest_but_duplicate_copies (hash compress : Bytes → Bytes)
    (layersDir f1 f2 : String) (data : Bytes) (fs : FileMap) (hne : f1 ≠ f2) :
    (createLayer hash compress layersDir f1 data fs).1.digest
      = (createLayer hash compress layersDir f2 data
          (createLayer hash compress layersDir f1 data fs).2).1.digest ∧
    (createLayer hash compress layersDir f1 data fs).1.path
      ≠ (createLayer hash compress layersDir f2 data
          (createLayer hash compress layersDir f1 data fs).2).1.path ∧
    flookup (createLayer hash compress layersDir f1 data fs).1.path
        (createLayer hash compress layersDir f2 data
          (createLayer hash compress layersDir f1 data fs).2).2 = some (compress data) ∧
    flookup (createLayer hash compress layersDir f2 data
          (createLayer hash compress layersDir f1 data fs).2).1.path
        (createLayer hash compress layersDir f2 data
          (createLayer hash compress layersDir f1 data fs).2).2 = some (compress data) := by
  have hpne : layersDir ++ "/" ++ f1 ++ ".tar.gz" ≠ layersDir ++ "/" ++ f2 ++ ".tar.gz" :=
    fun h => hne (layerPath_inj h)
  refine ⟨rfl, hpne, ?_, ?_⟩
  · show flookup (layersDir ++ "/" ++ f1 ++ ".tar.gz")
        ((layersDir ++ "/" ++ f2 ++ ".tar.gz", compress data)
          :: (layersDir ++ "/" ++ f1 ++ ".tar.gz", compress data) :: fs) = some (compress data)
    rw [flookup_cons_ne (Ne.symm hpne), flookup_cons_eq]
  · exact flookup_cons_eq

/-- Claim C4, counterexample: with concrete stand-ins for the external
hash and compressor and two fresh ids, the second `put` of the same byte
sequence `[0]` leaves two distinct on-disk entries holding the same
content — the "no two distinct stored copies" half of the claim is false
(the equal-digest half does hold). -/
theorem c4_counterexample_two_stored_copies :
    (createLayer (fun _ => []) (fun b => b) "layers" "a" [0] []).1.digest
      = (createLayer (fun _ => []) (fun b => b) "layers" "b" [0]
          (createLayer (fun _ => []) (fun b => b) "layers" "a" [0] []).2).1.digest ∧
    (createLayer (fun _ => []) (fun b => b) "layers" "b" [0]
        (createLayer (fun _ => []) (fun b => b) "layers" "a" [0] []).2).2
      = [("layers/b.tar.gz", [0]), ("layers/a.tar.gz", [0])] ∧
    ("layers/a.tar.gz" : String) ≠ "layers/b.tar.gz" :=
  ⟨rfl, by rfl, by decide⟩

/-- Claim C4, witness for the amended theorem at concrete inputs. -/
theorem c4_witness :
    (("a" : String) ≠ "b") ∧
    ((createLayer (fun _ => []) (fun b => b) "layers" "a" [0] []).1.digest
      = (createLayer (fun _ => []) (fun b => b) "layers" "b" [0]
          (createLayer (fun _ => []) (fun b => b) "layers" "a" [0] []).2).1.digest ∧
    (createLayer (fun _ => []) (fun b => b) "layers" "a" [0] []).1.path
      ≠ (createLayer (fun _ => []) (fun b => b) "layers" "b" [0]
          (createLayer (fun _ => []) (fun b => b) "layers" "a" [0] []).2).1.path ∧
    flookup (createLayer (fun _ => []) (fun b => b) "layers" "a" [0] []).1.path
        (createLayer (fun _ => []) (fun b => b) "layers" "b" [0]
          (createLayer (fun _ => []) (fun b => b) "layers" "a" [0] []).2).2
      = some ((fun (b : Bytes) => b) [0]) ∧
    flookup (createLayer (fun _ => []) (fun b => b) "layers" "b" [0]
          (createLayer (fun _ => []) (fun b => b) "layers" "a" [0] []).2).1.path
        (createLayer (fun _ => []) (fun b => b) "layers" "b" [0]
          (createLayer (fun _ => []) (fun b => b) "layers" "a" [0] []).2).2
      = some ((fun (b : Bytes) => b) [0])) :=
  ⟨by decide,
   c4_same_digest_but_duplicate_copies (fun _ => []) (fun b => b) "layers" "a" "b" [0] []
     (by decide)⟩

/-! ## Claims about the image record store (C10, C8) -/

lemma lookupRec_upsert (id : String) (r : ImageRec) (l : List (String × ImageRec)) :
    lookupRec id (upsertRec id r l) = some r := by
  induction l with
  | nil => simp [upsertRec, lookupRec]
  | cons p rest ih =>
    obtain ⟨i, r0⟩ := p
    by_cases h : i = id
    · subst h
      simp [upsertRec, lookupRec]
    · simp [upsertRec, lookupRec, h, ih]

/-- Claim C10: for every existing image id, `get_image` returns an `Image`
whose `layers` list is empty and whose `name` equals the id — the layer
list and display name the image was saved with are not reconstructed —
while config and manifest do come back from storage. -/
theorem c10_get_image_placeholder_fields :
    (∀ (st : ImageStore) (id : String) (img : Image), getImage st id = some img →
      img.name = id ∧ img.layers = [] ∧
      ∃ r, lookupRec id st.images = some r ∧
        img.config = r.config ∧ img.manifest = r.manifest) ∧
    (∀ (st : ImageStore) (img : Image),
      getImage (saveImage st img) img.id
        = some { id := img.id, name := img.id, layers := [],
                 config := img.config, manifest := img.manifest }) := by
  constructor
  · intro st id img h
    cases hl : lookupRec id st.images with
    | none => simp [getImage, hl] at h
    | some r =>
      simp only [getImage, hl, Option.some.injEq] at h
      subst h
      exact ⟨rfl, rfl, r, rfl, rfl, rfl⟩
  · intro st img
    simp [getImage, saveImage, lookupRec_upsert]

/-- Claim C10, witness: the theorem applied to a concrete one-image store. -/
theorem c10_witness :
    getImage sampleStore "abc"
        = some { id := "abc", name := "abc", layers := [],
                 config := sampleConfig, manifest := sampleManifest } ∧
    (({ id := "abc", name := "abc", layers := [],
        config := sampleConfig, manifest := sampleManifest } : Image).name = "abc" ∧
      ({ id := "abc", name := "abc", layers := [],
         config := sampleConfig, manifest := sampleManifest } : Image).layers = [] ∧
      ∃ r, lookupRec "abc" sampleStore.images = some r ∧
        ({ id := "abc", name := "abc", layers := [],
           config := sampleConfig, manifest := sampleManifest } : Image).config = r.config ∧
        ({ id := "abc", name := "abc", layers := [],
           config := sampleConfig, manifest := sampleManifest } : Image).manifest = r.manifest) :=
  ⟨by rfl,
   c10_get_image_placeholder_fields.1 sampleStore "abc"
     { id := "abc", name := "abc", layers := [],
       config := sampleConfig, manifest := sampleManifest } (by rfl)⟩

/-- Does the requested name have the shape that triggers the fallback of
`get_image_by_name`: a `/` somewhere, and a `:` in the segment after the
last `/`. -/
def fallbackShape (name : String) : Bool :=
  match splitLast '/' name.data with
  | none => false
  | some (_, after) => (splitFirst ':' after).isSome

/-- The probe id the fallback of `get_image_by_name` passes to
`get_image`: the text of the segment after the request's last `/` up to
that segment's first `:`, when both separators are present. -/
def fallbackIdPart (name : String) : Option String :=
  match splitLast '/' name.data with
  | none => none
  | some (_, after) =>
    match splitFirst ':' after with
    | none => none
    | some (idPart, _) => some (String.mk idPart)

lemma findByName_mem {name : String} {l : List (String × ImageRec)} {id : String}
    (h : findByName name l = some id) :
    ∃ r, (id, r) ∈ l ∧ ∃ s, r.name = some s ∧ strTrim s = name := by
  induction l with
  | nil => cases h
  | cons p rest ih =>
    obtain ⟨i, r⟩ := p
    cases hn : r.name with
    | none =>
      rw [findByName, hn] at h
      obtain ⟨r', hm, hs⟩ := ih h
      exact ⟨r', List.mem_cons_of_mem _ hm, hs⟩
    | some stored =>
      rw [findByName, hn] at h
      dsimp only at h
      by_cases ht : strTrim stored = name
      · rw [if_pos ht] at h
        injection h with h
        subst h
        exact ⟨r, List.mem_cons_self _ _, stored, hn, ht⟩
      · rw [if_neg ht] at h
        obtain ⟨r', hm, hs⟩ := ih h
        exact ⟨r', List.mem_cons_of_mem _ hm, hs⟩

/-- Claim C8, amended: `get_image_by_name` first scans all persisted ids
comparing each stored (trimmed) name; on a match it returns that image.
When no stored name matches it does not always fail closed: it probes
`get_image` on the text of the final segment (after the last `/`) before
that segment's first `:`; when the probe returns `Err` — the joined path
exists without holding a readable image, i.e. probe ids `""`, `"."`,
`".."` — the lookup does return `None`, but when the probe does not error
(a stored id, or a non-existent path, which `Ok(None)`-matches the
source's `if let Ok(_)` guard) and at least one image is stored, it
returns the *first* stored image as a guess rather than `None`. -/
theorem c8_scan_then_guess_first :
    (∀ (st : ImageStore) (name id : String),
      findByName name st.images = some id →
      getImageByName st name = getImage st id ∧
      ∃ r, (id, r) ∈ st.images ∧ ∃ s, r.name = some s ∧ strTrim s = name) ∧
    (∀ (st : ImageStore) (name : String),
      findByName name st.images = none → fallbackShape name = false →
      getImageByName st name = none) ∧
    (∀ (st : ImageStore) (name idPart : String),
      findByName name st.images = none →
      fallbackIdPart name = some idPart →
      getImageResult st idPart = .error () →
      getImageByName st name = none) ∧
    (∀ (st : ImageStore) (name idPart : String) (v : Option Image) (fid : String),
      findByName name st.images = none →
      fallbackIdPart name = some idPart →
      getImageResult st idPart = .ok v →
      (listImages st).head? = some fid →
      getImageByName st name = getImage st fid) ∧
    (∀ (st : ImageStore) (name idPart : String) (v : Option Image),
      findByName name st.images = none →
      fallbackIdPart name = some idPart →
      getImageResult st idPart = .ok v →
      (listImages st).head? = none →
      getImageByName st name = none) := by
  refine ⟨?_, ?_, ?_, ?_, ?_⟩
  · intro st name id h
    refine ⟨?_, findByName_mem h⟩
    simp [getImageByName, h]
  · intro st name h1 h2
    unfold getImageByName
    rw [h1]
    rcases hs : splitLast '/' name.data with _ | ⟨bef, aft⟩
    · rfl
    · simp only [fallbackShape, hs] at h2
      rcases hf : splitFirst ':' aft with _ | p
      · dsimp only
        rw [hf]
      · rw [hf] at h2
        simp at h2
  · intro st name idPart h1 h2 h3
    unfold getImageByName
    rw [h1]
    unfold fallbackIdPart at h2
    rcases hs : splitLast '/' name.data with _ | ⟨bef, aft⟩
    · rw [hs] at h2
    · rw [hs] at h2
      dsimp only at h2
      rcases hf : splitFirst ':' aft with _ | ⟨ip, rest2⟩
      · rw [hf] at h2
        cases h2
      · rw [hf] at h2
        dsimp only at h2
        injection h2 with h2
        subst h2
        dsimp only
        rw [hf]
        dsimp only
        rw [h3]
  · intro st name idPart v fid h1 h2 h3 h4
    unfold getImageByName
    rw [h1]
    unfold fallbackIdPart at h2
    rcases hs : splitLast '/' name.data with _ | ⟨bef, aft⟩
    · rw [hs] at h2
      cases h2
    · rw [hs] at h2
      dsimp only at h2
      rcases hf : splitFirst ':' aft with _ | ⟨ip, rest2⟩
      · rw [hf] at h2
        cases h2
      · rw [hf] at h2
        dsimp only at h2
        injection h2 with h2
        subst h2
        dsimp only
        rw [hf]
        dsimp only
        rw [h3]
        dsimp only
        rw [h4]
  · intro st name idPart v h1 h2 h3 h4
    unfold getImageByName
    rw [h1]
    unfold fallbackIdPart at h2
    rcases hs : splitLast '/' name.data with _ | ⟨bef, aft⟩
    · rw [hs] at h2
    · rw [hs] at h2
      dsimp only at h2
      rcases hf : splitFirst ':' aft with _ | ⟨ip, rest2⟩
      · rw [hf] at h2
        cases h2
      · rw [hf] at h2
        dsimp only at h2
        injection h2 with h2
        subst h2
        dsimp only
        rw [hf]
        dsimp only
        rw [h3]
        dsimp only
        rw [h4]

/-- Claim C8, counterexample: a store holding one image id `abc` with
stored name `foo`; the request `reg/xyz:v1` matches no stored name, yet
`get_image_by_name` returns the `abc` image instead of `None`. -/
theorem c8_counterexample_guesses_first_image :
    getImageByName sampleStore "reg/xyz:v1"
      = some { id := "abc", name := "abc", layers := [],
               config := sampleConfig, manifest := sampleManifest } ∧
    (∀ p ∈ sampleStore.images, ∀ s, p.2.name = some s → strTrim s ≠ "reg/xyz:v1") :=
  ⟨by rfl, by decide⟩

/-- Claim C8, witness for the amended theorem: the guessing branch applied
at `reg/xyz:v1` (probe id `xyz`, non-existent path, guard passes) and the
fail-closed branch at `reg/:v1` (probe id `""`, existing path with no
readable image, `get_image` errors). -/
theorem c8_witness :
    (findByName "reg/xyz:v1" sampleStore.images = none ∧
     fallbackIdPart "reg/xyz:v1" = some "xyz" ∧
     getImageResult sampleStore "xyz" = .ok none ∧
     (listImages sampleStore).head? = some "abc" ∧
     getImageByName sampleStore "reg/xyz:v1" = getImage sampleStore "abc") ∧
    (findByName "reg/:v1" sampleStore.images = none ∧
     fallbackIdPart "reg/:v1" = some "" ∧
     getImageResult sampleStore "" = .error () ∧
     getImageByName sampleStore "reg/:v1" = none) :=
  ⟨⟨by rfl, by rfl, by rfl, by rfl,
    c8_scan_then_guess_first.2.2.2.1 sampleStore "reg/xyz:v1" "xyz" none "abc"
      (by rfl) (by rfl) (by rfl) (by rfl)⟩,
   ⟨by rfl, by rfl, by rfl,
    c8_scan_then_guess_first.2.2.1 sampleStore "reg/:v1" ""
      (by rfl) (by rfl) (by rfl)⟩⟩

/-! ## Claim about manifest assembly (C6) -/

/-- Claim C6: manifest assembly is a pure function of its inputs; whenever
it returns a manifest, that manifest carries schema version 2 and the OCI
image-manifest media type, exactly one layer descriptor per input layer in
input order each copying that layer's digest and size, and one config
descriptor whose size is the serialized config's length; and an empty
layer list is not an error (given a digest the external validator
accepts). -/
theorem c6_create_manifest_shape :
    (∀ (validDigest : String → Bool) (config : ImageConfiguration)
        (layers : List Layer) (configDigest : String) (m : ImageManifest),
      createManifest validDigest config layers configDigest = some m →
      m.schemaVersion = 2 ∧ m.mediaType = .imageManifest ∧
      m.config = { mediaType := .imageConfig, digest := configDigest,
                   size := config.json.length } ∧
      m.layers.length = layers.length ∧
      (∀ (i : Nat) (l : Layer), layers[i]? = some l →
        m.layers[i]?
          = some { mediaType := .imageLayerGzip, digest := l.digest, size := l.size })) ∧
    (∀ (validDigest : String → Bool) (config : ImageConfiguration) (configDigest : String),
      validDigest configDigest = true →
      ∃ m, createManifest validDigest config [] configDigest = some m) := by
  constructor
  · intro validDigest config layers configDigest m h
    unfold createManifest at h
    split at h
    · simp only [Option.some.injEq] at h
      subst h
      refine ⟨rfl, rfl, rfl, by simp, ?_⟩
      intro i l hl
      simp [List.getElem?_map, hl]
    · cases h
  · intro validDigest config configDigest hv
    refine ⟨{ schemaVersion := 2, mediaType := .imageManifest,
              config := { mediaType := .imageConfig, digest := configDigest,
                          size := config.json.length },
              layers := [] }, ?_⟩
    simp [createManifest, hv]

/-- Claim C6, witness: the first part applied to a concrete one-layer
input, the second to a concrete digest. -/
theorem c6_witness :
    (createManifest (fun _ => true) sampleConfig [sampleLayer] "sha256:bb"
        = some sampleManifest ∧
      (sampleManifest.schemaVersion = 2 ∧ sampleManifest.mediaType = .imageManifest ∧
       sampleManifest.config = { mediaType := .imageConfig, digest := "sha256:bb",
                                 size := sampleConfig.json.length } ∧
       sampleManifest.layers.length = [sampleLayer].length ∧
       (∀ (i : Nat) (l : Layer), [sampleLayer][i]? = some l →
         sampleManifest.layers[i]?
           = some { mediaType := .imageLayerGzip, digest := l.digest, size := l.size }))) ∧
    ((fun _ => true : String → Bool) "sha256:bb" = true ∧
      ∃ m, createManifest (fun _ => true) sampleConfig [] "sha256:bb" = some m) :=
  ⟨⟨by rfl,
    c6_create_manifest_shape.1 (fun _ => true) sampleConfig [sampleLayer] "sha256:bb"
      sampleManifest (by rfl)⟩,
   ⟨rfl, c6_create_manifest_shape.2 (fun _ => true) sampleConfig "sha256:bb" rfl⟩⟩

/-! ## Claim about the pull path (C9) -/

lemma downloadLayerList_all_ok (o : PullOracle) (registryUrl repo outputDir : String)
    (body : String → Bytes) :
    ∀ ds : List Descriptor,
      (∀ d ∈ ds, o.get (blobUrl registryUrl repo d.digest) = some (true, body d.digest)) →
      downloadLayerList o registryUrl repo outputDir ds
        = some (ds.map fun d => (layerFileName outputDir d.digest, body d.digest)) := by
  intro ds
  induction ds with
  | nil => intro _; rfl
  | cons d rest ih =>
    intro h
    have hd := h d (List.mem_cons_self _ _)
    have hrest := ih (fun d' hd' => h d' (List.mem_cons_of_mem _ hd'))
    simp [downloadLayerList, downloadLayer, hd, hrest]

/-- Claim C9: from a fetched manifest, every layer blob is fetched in
manifest order and written as `layer_<digest with : replaced by _>.tar.gz`
(then the config as `config_<digest>.json`), with whatever bytes the
registry served — no comparison against the descriptor's digest ever
happens (`body` is arbitrary); and a single blob download fails exactly on
a transport error or a non-success status, never on a digest mismatch. -/
theorem c9_pull_order_naming_no_verification :
    (∀ (o : PullOracle) (registryUrl repo outputDir : String) (m : ImageManifest)
        (body : String → Bytes),
      (∀ d ∈ m.config :: m.layers,
        o.get (blobUrl registryUrl repo d.digest) = some (true, body d.digest)) →
      pullBlobs o registryUrl repo m outputDir
        = some ((m.layers.map fun d => (layerFileName outputDir d.digest, body d.digest))
            ++ [(configFileName outputDir m.config.digest, body m.config.digest)])) ∧
    (∀ (o : PullOracle) (registryUrl repo outputDir : String) (d : Descriptor),
      downloadLayer o registryUrl repo d outputDir = none ↔
        (o.get (blobUrl registryUrl repo d.digest) = none ∨
         ∃ b, o.get (blobUrl registryUrl repo d.digest) = some (false, b))) := by
  constructor
  · intro o registryUrl repo outputDir m body h
    have hcfg := h m.config (List.mem_cons_self _ _)
    have hlayers := downloadLayerList_all_ok o registryUrl repo outputDir body m.layers
      (fun d hd => h d (List.mem_cons_of_mem _ hd))
    simp [pullBlobs, downloadConfig, hcfg, hlayers]
  · intro o registryUrl repo outputDir d
    rcases hg : o.get (blobUrl registryUrl repo d.digest) with _ | ⟨ok, b⟩
    · simp [downloadLayer, hg]
    · cases ok
      · simp [downloadLayer, hg]
      · simp [downloadLayer, hg]

/-- Claim C9, witness: an oracle that serves `[9, 9]` for every blob —
bytes that match no `sha256:` digest — is accepted and written under the
digest-derived names, in manifest order. -/
theorem c9_witness :
    (∀ d ∈ sampleManifest.config :: sampleManifest.layers,
      (PullOracle.mk fun _ => some (true, [9, 9])).get
          (blobUrl "http://localhost:5000" "myimage" d.digest)
        = some (true, (fun _ => [9, 9] : String → Bytes) d.digest)) ∧
    pullBlobs ⟨fun _ => some (true, [9, 9])⟩ "http://localhost:5000" "myimage"
        sampleManifest "out"
      = some ((sampleManifest.layers.map
            fun d => (layerFileName "out" d.digest, (fun _ => [9, 9] : String → Bytes) d.digest))
          ++ [(configFileName "out" sampleManifest.config.digest,
               (fun _ => [9, 9] : String → Bytes) sampleManifest.config.digest)]) :=
  ⟨fun _ _ => rfl,
   c9_pull_order_naming_no_verification.1 ⟨fun _ => some (true, [9, 9])⟩
     "http://localhost:5000" "myimage" "out" sampleManifest
     (fun _ => [9, 9]) (fun _ _ => rfl)⟩

/-! ## Claim about push ordering (C1) -/

lemma uploadBlobStep_ok (reg : Registry) (n : Nat) (repo d : String)
    (h : (uploadBlobStep reg n repo d).2 = true) :
    (uploadBlobStep reg n repo d).1 = [.postInit repo true, .putBlob d true] := by
  by_cases h1 : reg.initOk n = true
  · rcases h2 : reg.loc n with _ | l
    · simp [uploadBlobStep, h1, h2] at h
    · by_cases h3 : reg.readOk n = true
      · have hp : reg.putOk n = true := by
          simpa [uploadBlobStep, h1, h2, h3] using h
        simp [uploadBlobStep, h1, h2, h3, hp]
      · simp [uploadBlobStep, h1, h2, h3] at h
  · simp [uploadBlobStep, h1] at h

lemma uploadBlobStep_no_manifest (reg : Registry) (n : Nat) (repo d : String) :
    ∀ e ∈ (uploadBlobStep reg n repo d).1, e.isPutManifest = false := by
  intro e he
  by_cases h1 : reg.initOk n = true
  · rcases h2 : reg.loc n with _ | l
    · simp [uploadBlobStep, h1, h2] at he
      subst he; rfl
    · by_cases h3 : reg.readOk n = true
      · simp [uploadBlobStep, h1, h2, h3] at he
        rcases he with rfl | rfl <;> rfl
      · simp [uploadBlobStep, h1, h2, h3] at he
        subst he; rfl
  · simp [uploadBlobStep, h1] at he
    subst he; rfl

lemma uploadConfigStep_ok (reg : Registry) (n : Nat) (repo d : String)
    (h : (uploadConfigStep reg n repo d).2 = true) :
    (uploadConfigStep reg n repo d).1 = [.postInit repo true, .putBlob d true] := by
  by_cases h1 : reg.initOk n = true
  · rcases h2 : reg.loc n with _ | l
    · simp [uploadConfigStep, h1, h2] at h
    · have hp : reg.putOk n = true := by
        simpa [uploadConfigStep, h1, h2] using h
      simp [uploadConfigStep, h1, h2, hp]
  · simp [uploadConfigStep, h1] at h

lemma uploadConfigStep_no_manifest (reg : Registry) (n : Nat) (repo d : String) :
    ∀ e ∈ (uploadConfigStep reg n repo d).1, e.isPutManifest = false := by
  intro e he
  by_cases h1 : reg.initOk n = true
  · rcases h2 : reg.loc n with _ | l
    · simp [uploadConfigStep, h1, h2] at he
      subst he; rfl
    · simp [uploadConfigStep, h1, h2] at he
      rcases he with rfl | rfl <;> rfl
  · simp [uploadConfigStep, h1] at he
    subst he; rfl

lemma uploadLayerList_no_manifest (reg : Registry) (repo : String) :
    ∀ (ls : List Layer) (n : Nat),
      ∀ e ∈ (uploadLayerList reg repo ls n).1, e.isPutManifest = false := by
  intro ls
  induction ls with
  | nil =>
    intro n e he
    simp [uploadLayerList] at he
  | cons l rest ih =>
    intro n e he
    by_cases hc : (uploadBlobStep reg n repo l.digest).2 = true
    · simp only [uploadLayerList, hc, if_true] at he
      rcases List.mem_append.1 he with h' | h'
      · exact uploadBlobStep_no_manifest reg n repo l.digest e h'
      · exact ih (n + 1) e h'
    · simp only [uploadLayerList, if_neg hc] at he
      exact uploadBlobStep_no_manifest reg n repo l.digest e he

lemma uploadLayerList_ok (reg : Registry) (repo : String) :
    ∀ (ls : List Layer) (n : Nat),
      (uploadLayerList reg repo ls n).2 = true →
      (∀ e ∈ (uploadLayerList reg repo ls n).1, e.statusOk = true) ∧
      (uploadLayerList reg repo ls n).1.countP Event.isPutBlob = ls.length := by
  intro ls
  induction ls with
  | nil =>
    intro n _
    constructor
    · intro e he
      simp [uploadLayerList] at he
    · rfl
  | cons l rest ih =>
    intro n h
    by_cases hc : (uploadBlobStep reg n repo l.digest).2 = true
    · have hstep := uploadBlobStep_ok reg n repo l.digest hc
      have h2 : (uploadLayerList reg repo rest (n + 1)).2 = true := by
        simpa [uploadLayerList, hc] using h
      obtain ⟨iall, icount⟩ := ih (n + 1) h2
      have htr : (uploadLayerList reg repo (l :: rest) n).1
          = (uploadBlobStep reg n repo l.digest).1
            ++ (uploadLayerList reg repo rest (n + 1)).1 := by
        simp [uploadLayerList, hc]
      constructor
      · intro e he
        rw [htr] at he
        rcases List.mem_append.1 he with h' | h'
        · rw [hstep] at h'
          simp at h'
          rcases h' with rfl | rfl <;> rfl
        · exact iall e h'
      · rw [htr, List.countP_append, hstep, icount]
        simp [List.countP_cons, Event.isPutBlob]
        omega
    · simp [uploadLayerList, hc] at h

lemma getLast_append_single {α : Type} (l : List α) (a : α) :
    (l ++ [a]).getLast? = some a := by
  simp

/-- Claim C1: the manifest PUT of `push_image` happens only after every
layer blob and the config blob have been uploaded with a success status:
whenever the trace contains a manifest PUT, every initiation POST and blob
PUT in the trace succeeded, there are exactly `layers + 1` blob PUTs, and
the manifest PUT is the trace's final event; conversely a non-success
status at any POST or blob PUT makes the push return an error with no
manifest PUT ever issued. -/
theorem c1_manifest_put_only_after_blob_successes
    (hash : Bytes → Bytes) (validDigest : String → Bool) (reg : Registry)
    (imageName : String) (img : Image) :
    (∀ repo tag ok,
      Event.putManifest repo tag ok ∈ (pushImage hash validDigest reg imageName img).1 →
      (∀ e ∈ (pushImage hash validDigest reg imageName img).1,
          e.isPutManifest = false → e.statusOk = true) ∧
      (pushImage hash validDigest reg imageName img).1.countP Event.isPutBlob
          = img.layers.length + 1 ∧
      (pushImage hash validDigest reg imageName img).1.getLast?
          = some (Event.putManifest repo tag ok)) ∧
    ((∃ e ∈ (pushImage hash validDigest reg imageName img).1,
        e.isPutManifest = false ∧ e.statusOk = false) →
      (pushImage hash validDigest reg imageName img).2 = false ∧
      ∀ e ∈ (pushImage hash validDigest reg imageName img).1, e.isPutManifest = false) := by
  cases hp : parseImageName imageName with
  | error err =>
    have htr1 : (pushImage hash validDigest reg imageName img).1 = [] := by
      simp [pushImage, hp]
    constructor
    · intro repo tag ok h
      rw [htr1] at h
      cases h
    · rintro ⟨e, he, -, -⟩
      rw [htr1] at he
      cases he
  | ok v =>
    obtain ⟨repo', tag'⟩ := v
    by_cases hrl : (uploadLayerList reg repo' img.layers 0).2 = true
    · by_cases hrc : (uploadConfigStep reg img.layers.length repo'
          ("sha256:" ++ bytesToHex (hash img.config.json))).2 = true
      · cases hm : createManifest validDigest img.config img.layers
            ("sha256:" ++ bytesToHex (hash img.config.json)) with
        | none =>
          have htr1 : (pushImage hash validDigest reg imageName img).1
              = (uploadLayerList reg repo' img.layers 0).1
                ++ (uploadConfigStep reg img.layers.length repo'
                     ("sha256:" ++ bytesToHex (hash img.config.json))).1 := by
            simp [pushImage, hp, hrl, hrc, hm]
          have htr2 : (pushImage hash validDigest reg imageName img).2 = false := by
            simp [pushImage, hp, hrl, hrc, hm]
          have hnomans : ∀ e ∈ (pushImage hash validDigest reg imageName img).1,
              e.isPutManifest = false := by
            intro e he
            rw [htr1] at he
            rcases List.mem_append.1 he with h' | h'
            · exact uploadLayerList_no_manifest reg repo' img.layers 0 e h'
            · exact uploadConfigStep_no_manifest reg img.layers.length repo' _ e h'
          constructor
          · intro repo tag ok h
            have := hnomans _ h
            simp [Event.isPutManifest] at this
          · intro _
            exact ⟨htr2, hnomans⟩
        | some mm =>
          have htr1 : (pushImage hash validDigest reg imageName img).1
              = (uploadLayerList reg repo' img.layers 0).1
                ++ (uploadConfigStep reg img.layers.length repo'
                     ("sha256:" ++ bytesToHex (hash img.config.json))).1
                ++ [.putManifest repo' tag' reg.manifestOk] := by
            simp [pushImage, hp, hrl, hrc, hm]
          obtain ⟨hrlall, hrlcount⟩ := uploadLayerList_ok reg repo' img.layers 0 hrl
          have hrcsh := uploadConfigStep_ok reg img.layers.length repo' _ hrc
          constructor
          · intro repo tag ok h
            rw [htr1] at h
            have hev : Event.putManifest repo tag ok
                = Event.putManifest repo' tag' reg.manifestOk := by
              rcases List.mem_append.1 h with h' | h'
              · rcases List.mem_append.1 h' with h'' | h''
                · have := uploadLayerList_no_manifest reg repo' img.layers 0 _ h''
                  simp [Event.isPutManifest] at this
                · have := uploadConfigStep_no_manifest reg img.layers.length repo' _ _ h''
                  simp [Event.isPutManifest] at this
              · simpa using h'
            refine ⟨?_, ?_, ?_⟩
            · intro e he hnm
              rw [htr1] at he
              rcases List.mem_append.1 he with h' | h'
              · rcases List.mem_append.1 h' with h'' | h''
                · exact hrlall e h''
                · rw [hrcsh] at h''
                  simp at h''
                  rcases h'' with rfl | rfl <;> rfl
              · simp at h'
                subst h'
                simp [Event.isPutManifest] at hnm
            · rw [htr1, List.countP_append, List.countP_append, hrlcount, hrcsh]
              simp [List.countP_cons, Event.isPutBlob]
            · rw [htr1, getLast_append_single, ← hev]
          · rintro ⟨e, he, hnm, hbad⟩
            exfalso
            rw [htr1] at he
            rcases List.mem_append.1 he with h' | h'
            · rcases List.mem_append.1 h' with h'' | h''
              · rw [hrlall e h''] at hbad
                cases hbad
              · rw [hrcsh] at h''
                simp at h''
                rcases h'' with rfl | rfl <;> simp [Event.statusOk] at hbad
            · simp at h'
              subst h'
              simp [Event.isPutManifest] at hnm
      · have htr1 : (pushImage hash validDigest reg imageName img).1
            = (uploadLayerList reg repo' img.layers 0).1
              ++ (uploadConfigStep reg img.layers.length repo'
                   ("sha256:" ++ bytesToHex (hash img.config.json))).1 := by
          simp [pushImage, hp, hrl, hrc]
        have htr2 : (pushImage hash validDigest reg imageName img).2 = false := by
          simp [pushImage, hp, hrl, hrc]
        have hnomans : ∀ e ∈ (pushImage hash validDigest reg imageName img).1,
            e.isPutManifest = false := by
          intro e he
          rw [htr1] at he
          rcases List.mem_append.1 he with h' | h'
          · exact uploadLayerList_no_manifest reg repo' img.layers 0 e h'
          · exact uploadConfigStep_no_manifest reg img.layers.length repo' _ e h'
        constructor
        · intro repo tag ok h
          have := hnomans _ h
          simp [Event.isPutManifest] at this
        · intro _
          exact ⟨htr2, hnomans⟩
    · have htr1 : (pushImage hash validDigest reg imageName img).1
          = (uploadLayerList reg repo' img.layers 0).1 := by
        simp [pushImage, hp, hrl]
      have htr2 : (pushImage hash validDigest reg imageName img).2 = false := by
        simp [pushImage, hp, hrl]
      have hnomans : ∀ e ∈ (pushImage hash validDigest reg imageName img).1,
          e.isPutManifest = false := by
        intro e he
        rw [htr1] at he
        exact uploadLayerList_no_manifest reg repo' img.layers 0 e he
      constructor
      · intro repo tag ok h
        have := hnomans _ h
        simp [Event.isPutManifest] at this
      · intro _
        exact ⟨htr2, hnomans⟩

/-- An all-success registry oracle, for the C1 witness. -/
def regAllOk : Registry :=
  { initOk := fun _ => true, loc := fun _ => some "/upload",
    putOk := fun _ => true, readOk := fun _ => true, manifestOk := true }

/-- Claim C1, witness: a one-layer push against an all-success registry
reaches the manifest PUT, and the theorem's conclusions hold on its
trace. -/
theorem c1_witness :
    Event.putManifest "library/myimage" "latest" true
        ∈ (pushImage (fun _ => []) (fun _ => true) regAllOk "myimage" sampleImage).1 ∧
    ((∀ e ∈ (pushImage (fun _ => []) (fun _ => true) regAllOk "myimage" sampleImage).1,
        e.isPutManifest = false → e.statusOk = true) ∧
     (pushImage (fun _ => []) (fun _ => true) regAllOk "myimage" sampleImage).1.countP
         Event.isPutBlob = sampleImage.layers.length + 1 ∧
     (pushImage (fun _ => []) (fun _ => true) regAllOk "myimage" sampleImage).1.getLast?
         = some (Event.putManifest "library/myimage" "latest" true)) :=
  ⟨by decide,
   (c1_manifest_put_only_after_blob_successes (fun _ => [])
       (fun _ => true) regAllOk "myimage" sampleImage).1
     "library/myimage" "latest" true (by decide)⟩

end ContainerBuilder
